import Mathlib

/-!
Shallow embedding of the gossip_glomers repository (Maelstrom workloads in
Rust) and proofs about its broadcast anti-entropy engine, its KV-backed
grow-only counter nodes, and its unique-id node.

Conventions of the embedding:
* usize becomes Nat (no arithmetic in the code can overflow in ways the
  claims depend on; Rust usize subtraction only occurs as new - old with
  new >= old).
* FxHashSet of usize becomes Finset Nat; FxHashSet of String becomes
  Finset String.
* The broadcast known map, FxHashMap from String to a pair of sets, is
  split into its key set (knownKeys) plus two total functions (known,
  last_sent) that return the empty set outside knownKeys; a lookup of a
  key outside knownKeys in the Rust code hits an expect and aborts the
  process, which the embedding models by returning none.
* Vec of usize collected from a set difference or drain has unspecified
  order, so wire payload fields built from them are modelled as Finset.
* Functions that can abort (expect on the known-map lookup, the
  unreachable-error-code abort of the counter) return Option; none means
  the process dies.
-/

/-- Generic message body, from src/src/message.rs (Body). On the wire id is
msg_id and reply_id is in_reply_to. -/
structure Body (Payload : Type) where
  id : Option Nat
  reply_id : Option Nat
  payload : Payload
  deriving Repr, DecidableEq

/-- Generic message envelope, from src/src/message.rs (Message). On the wire
dst is dest. -/
structure Message (Payload : Type) where
  src : String
  dst : String
  body : Body Payload
  deriving Repr, DecidableEq

/-- Error codes, from src/src/message.rs (ErrorCode). -/
inductive ErrorCode
  | timeout
  | nodeNotFound
  | nodeSupported
  | temporarilyUnavailable
  | malformedRequest
  | crash
  | abort
  | keyDoesNotExist
  | keyAlreadyExists
  | preconditionFailed
  | txnConflict
  deriving Repr, DecidableEq

namespace Broadcast

/-- Request payload of the broadcast node, from src/src/bin/broadcast.rs
(BroadcastRequest). The consensus variant carries seen as a HashSet and
seen_ack as a Vec in the source. -/
inductive BroadcastRequest
  | broadcast (message : Nat)
  | read
  | topology (topology : List (String × List String))
  | consensus (seen : Finset Nat) (seen_ack : List Nat)

/-- Response payload of the broadcast node, from src/src/bin/broadcast.rs
(BroadcastRespone; the source spells it that way). The consensus seen and
seen_ack Vecs are collected from a set difference and a drain in unspecified
order, so they are modelled as Finset. -/
inductive BroadcastRespone
  | broadcastOk
  | readOk (messages : Finset Nat)
  | topologyOk
  | consensus (seen : Finset Nat) (seen_ack : Finset Nat)
  deriving DecidableEq

/-- State of the broadcast node, from src/src/bin/broadcast.rs
(EventHandler). The known HashMap is split into knownKeys (its key set) and
the two component functions known and last_sent (the source binds the pair
components with those names; the spec calls the second one last_received). -/
@[ext]
structure EventHandler where
  id : Nat
  node : String
  messages : Finset Nat
  knownKeys : Finset String
  known : String → Finset Nat
  last_sent : String → Finset Nat
  peers : Finset String
  force : Bool

/-- Constructor of the broadcast state, from EventHandler::new in
src/src/bin/broadcast.rs: the known map gets one empty entry per roster node
other than self, messages and peers start empty, force comes from the
FORCE_TICK environment variable (default true). -/
def EventHandler.new (node : String) (node_ids : List String) (force : Bool) :
    EventHandler where
  id := 0
  node := node
  messages := ∅
  knownKeys := (node_ids.filter (fun n => !(n == node))).toFinset
  known := fun _ => ∅
  last_sent := fun _ => ∅
  peers := ∅
  force := force

/-- Result of handling one input payload: the updated state, whether a
force-tick signal was sent on tick_tx, and the synchronous reply if any. -/
structure StepOut where
  state : EventHandler
  tick : Bool
  response : Option BroadcastRespone

/-- Input handler of the broadcast node, from
EventHandler::handle_input_payload in src/src/bin/broadcast.rs. Returns none
exactly when the source would hit the expect on the known-map lookup (a
consensus message whose src has no entry). -/
def handle_input_payload (s : EventHandler) (payload : BroadcastRequest)
    (src : String) : Option StepOut :=
  match payload with
  | .broadcast message =>
      some { state := { s with messages := insert message s.messages }
             tick := decide (message ∉ s.messages) && s.force
             response := some .broadcastOk }
  | .read =>
      some { state := s, tick := false, response := some (.readOk s.messages) }
  | .topology topology =>
      match topology.lookup s.node with
      | some peers =>
          some { state := { s with peers := peers.toFinset }
                 tick := false
                 response := some .topologyOk }
      | none =>
          some { state := s, tick := false, response := some .topologyOk }
  | .consensus seen seen_ack =>
      if src ∈ s.knownKeys then
        some { state :=
                 { s with
                   known := fun q =>
                     if q = src then s.known q ∪ seen_ack.toFinset
                     else s.known q
                   messages :=
                     if seen ⊆ s.messages then s.messages
                     else s.messages ∪ seen
                   last_sent := fun q =>
                     if q = src then seen else s.last_sent q }
               tick := !decide (seen ⊆ s.messages) && s.force
               response := none }
      else none

/-- One iteration of the tick loop of EventHandler::handle_events in
src/src/bin/broadcast.rs for a single peer: drain last_sent, compute the
difference of messages and known, skip when both are empty, otherwise emit
one consensus envelope with no msg_id and no in_reply_to and bump id.
Returns none exactly when the source would hit the expect on the known-map
lookup. -/
def tick_peer (s : EventHandler) (peer : String) :
    Option (EventHandler × Option (Message BroadcastRespone)) :=
  if peer ∈ s.knownKeys then
    let seen := s.messages \ s.known peer
    let seen_ack := s.last_sent peer
    let s' := { s with last_sent := fun q => if q = peer then ∅ else s.last_sent q }
    if seen = ∅ ∧ seen_ack = ∅ then some (s', none)
    else
      some ({ s' with id := s'.id + 1 },
        some { src := s.node
               dst := peer
               body := { id := none
                         reply_id := none
                         payload := .consensus seen seen_ack } })
  else none

/-- The full tick branch of EventHandler::handle_events iterated over an
enumeration of the peers set (HashSet iteration order is unspecified, so the
enumeration is a parameter). Returns the final state and the list of emitted
envelopes. -/
def tick_list (s : EventHandler) :
    List String → Option (EventHandler × List (Message BroadcastRespone))
  | [] => some (s, [])
  | p :: ps =>
      match tick_peer s p with
      | none => none
      | some (s', none) => tick_list s' ps
      | some (s', some m) => (tick_list s' ps).map (fun r => (r.1, m :: r.2))

/-- Reachability of a broadcast handler state from a start state by input
events (with arbitrary payloads and sources) and tick events (over any
duplicate-free enumeration of the current peers set). -/
inductive Reachable (s₀ : EventHandler) : EventHandler → Prop
  | init : Reachable s₀ s₀
  | input {s : EventHandler} {p : BroadcastRequest} {q : String}
      {o : StepOut} :
      Reachable s₀ s → handle_input_payload s p q = some o →
      Reachable s₀ o.state
  | tick {s : EventHandler} {l : List String}
      {r : EventHandler × List (Message BroadcastRespone)} :
      Reachable s₀ s → l.Nodup → l.toFinset = s.peers →
      tick_list s l = some r → Reachable s₀ r.1

/-- Reachability restricted to honest acknowledgements: every delivered
consensus event carries a seen_ack whose values are already in the node's
messages (true in real executions, where a peer only acknowledges values
this node previously sent out of its own messages set). -/
inductive ReachableAck (s₀ : EventHandler) : EventHandler → Prop
  | init : ReachableAck s₀ s₀
  | input {s : EventHandler} {p : BroadcastRequest} {q : String}
      {o : StepOut} :
      ReachableAck s₀ s →
      (∀ seen seen_ack, p = .consensus seen seen_ack →
        seen_ack.toFinset ⊆ s.messages) →
      handle_input_payload s p q = some o →
      ReachableAck s₀ o.state
  | tick {s : EventHandler} {l : List String}
      {r : EventHandler × List (Message BroadcastRespone)} :
      ReachableAck s₀ s → l.Nodup → l.toFinset = s.peers →
      tick_list s l = some r → ReachableAck s₀ r.1

end Broadcast

namespace GCounter

/-- Request payload of the counter node, from src/src/bin/g_counter.rs
(CounterRequest). readCounterOk is the read_ok reply of the KV and
counterUpdated its cas_ok reply; the text field of error is dropped (the
source never reads it). -/
inductive CounterRequest
  | add (delta : Nat)
  | read
  | readCounterOk (value : Nat)
  | counterUpdated
  | error (code : ErrorCode)
  deriving Repr, DecidableEq

/-- Response payload of the counter node, from src/src/bin/g_counter.rs
(CounterResponse). updateCounter serialises as cas with fields from and to
and create_if_not_exists. -/
inductive CounterResponse
  | addOk
  | readCounter (key : String)
  | updateCounter (key : String) (old new : Nat) (create : Bool)
  | readOk (value : Nat)
  deriving Repr, DecidableEq

/-- Key of the counter in the KV store, from src/src/bin/g_counter.rs. -/
def KEY : String := "COUNTER"

/-- State of the counter node, from src/src/bin/g_counter.rs (EventHandler).
last_update is the inflight compare-and-swap record (msg id, old value, new
value). -/
structure EventHandler where
  id : Nat
  node : String
  value : Nat
  delta : Nat
  last_update : Option (Nat × Nat × Nat)
  deriving Repr, DecidableEq

/-- Constructor of the counter state, from EventHandler::new in
src/src/bin/g_counter.rs. -/
def EventHandler.new (node : String) : EventHandler where
  id := 0
  node := node
  value := 0
  delta := 0
  last_update := none

/-- Result of handling one counter input payload: updated state, whether a
force-tick signal was sent, and the emitted reply if any. -/
structure StepOut where
  state : EventHandler
  tick : Bool
  response : Option CounterResponse
  deriving Repr, DecidableEq

/-- Input handler of the counter node, from
EventHandler::handle_input_payload in src/src/bin/g_counter.rs. Returns none
exactly when the source aborts on an unhandled error code. -/
def handle_input_payload (s : EventHandler) (payload : CounterRequest) :
    Option StepOut :=
  match payload with
  | .add delta =>
      some { state := { s with delta := s.delta + delta }
             tick := false
             response := some .addOk }
  | .read =>
      some { state := s
             tick := true
             response := some (.readOk (s.value + s.delta)) }
  | .readCounterOk value =>
      if s.delta > 0 then
        some { state := { s with
                            value := value + s.delta
                            last_update := some (s.id, value, value + s.delta)
                            delta := 0 }
               tick := false
               response := some (.updateCounter KEY value (value + s.delta) false) }
      else
        some { state := { s with value := value + s.delta }
               tick := false
               response := none }
  | .counterUpdated =>
      some { state := { s with last_update := none }, tick := false, response := none }
  | .error code =>
      let restored : EventHandler × Bool :=
        match s.last_update with
        | some (_, old, new) =>
            ({ s with delta := s.delta + (new - old), last_update := none }, true)
        | none => (s, false)
      match code with
      | .keyDoesNotExist =>
          some { state := restored.1
                 tick := restored.2
                 response := some (.updateCounter KEY 0 0 true) }
      | .preconditionFailed =>
          some { state := restored.1, tick := restored.2, response := none }
      | .timeout =>
          some { state := restored.1, tick := restored.2, response := none }
      | .keyAlreadyExists =>
          some { state := restored.1, tick := restored.2, response := none }
      | _ => none

/-- Driver used for the monotonicity analysis: feed a list of input payloads
through the handler, mirroring the Event::Input arm of
EventHandler::handle_events in src/src/bin/g_counter.rs (the response id
counter is bumped once per emitted reply), and collect the values of the
read_ok replies sent to clients. Returns none when some input aborts. -/
def runReads (s : EventHandler) :
    List CounterRequest → Option (EventHandler × List Nat)
  | [] => some (s, [])
  | r :: rest =>
      match handle_input_payload s r with
      | none => none
      | some out =>
          let s' :=
            if out.response.isSome then { out.state with id := out.state.id + 1 }
            else out.state
          (runReads s' rest).map fun f =>
            (f.1,
              (match out.response with
               | some (.readOk v) => [v]
               | _ => []) ++ f.2)

/-- Staged delta of the inflight compare-and-swap record (new minus old),
zero when none is inflight; used to state the no-delta-loss invariant. -/
def inflDelta (s : EventHandler) : Nat :=
  match s.last_update with
  | some (_, old, new) => new - old
  | none => 0

end GCounter

namespace GrowOnly

/-- Request payload of the older grow-only counter node, from
src/src/bin/grow_only_counter.rs (CounterRequest). keyValue is the read_ok
reply of the KV and updateSuccess its cas_ok reply. -/
inductive CounterRequest
  | add (delta : Nat)
  | read
  | keyValue (value : Nat)
  | updateSuccess
  | error (code : ErrorCode)
  deriving Repr, DecidableEq

/-- Response payload of the older grow-only counter node, from
src/src/bin/grow_only_counter.rs (CounterRespone). -/
inductive CounterRespone
  | addOk
  | getKey (key : String)
  | updateValueFrom (key : String) (old new : Nat) (create : Bool)
  | readOk (value : Nat)
  deriving Repr, DecidableEq

/-- Key of the counter in the KV store, from
src/src/bin/grow_only_counter.rs. -/
def KEY : String := "COUNTER"

/-- State of the older grow-only counter node, from
src/src/bin/grow_only_counter.rs (EventHandler). -/
structure EventHandler where
  id : Nat
  node : String
  value : Nat
  delta : Nat
  last_update : Option (Nat × Nat × Nat)
  deriving Repr, DecidableEq

/-- Result of handling one input payload of the older grow-only counter. -/
structure StepOut where
  state : EventHandler
  tick : Bool
  response : Option CounterRespone
  deriving Repr, DecidableEq

/-- Input handler of the older grow-only counter node, from
EventHandler::handle_input_payload in src/src/bin/grow_only_counter.rs.
Differences against g_counter.rs that matter below: the error arm restores
the staged delta only for preconditionFailed, timeout and keyAlreadyExists
(not for keyDoesNotExist), and the keyValue arm updates value only when
delta is positive. Returns none exactly when the source aborts on an
unhandled error code. -/
def handle_input_payload (s : EventHandler) (payload : CounterRequest) :
    Option StepOut :=
  match payload with
  | .add delta =>
      some { state := { s with delta := s.delta + delta }
             tick := false
             response := some .addOk }
  | .read =>
      some { state := s
             tick := true
             response := some (.readOk (s.value + s.delta)) }
  | .error code =>
      match code with
      | .keyDoesNotExist =>
          some { state := s
                 tick := false
                 response := some (.updateValueFrom KEY 0 0 true) }
      | .preconditionFailed | .timeout | .keyAlreadyExists =>
          match s.last_update with
          | some (_, old, new) =>
              some { state := { s with
                                  delta := s.delta + (new - old)
                                  last_update := none }
                     tick := true
                     response := none }
          | none => some { state := s, tick := false, response := none }
      | _ => none
  | .keyValue value =>
      if s.delta > 0 then
        some { state := { s with
                            value := value + s.delta
                            last_update := some (s.id, value, value + s.delta)
                            delta := 0 }
               tick := false
               response := some (.updateValueFrom KEY value (value + s.delta) false) }
      else
        some { state := s, tick := false, response := none }
  | .updateSuccess =>
      some { state := { s with last_update := none }, tick := false, response := none }

/-- Staged delta of the inflight compare-and-swap record (new minus old),
zero when none is inflight; used to state the no-delta-loss invariant. -/
def inflDelta (s : EventHandler) : Nat :=
  match s.last_update with
  | some (_, old, new) => new - old
  | none => 0

end GrowOnly

namespace UniqueIds

/-- Request payload of the unique-id node, from src/src/bin/unique_ids.rs
(GenRequest). -/
inductive GenRequest
  | generate
  deriving Repr, DecidableEq

/-- Response payload of the unique-id node, from src/src/bin/unique_ids.rs
(GenRespone; the source spells it that way). -/
inductive GenRespone
  | generateOk (id : String)
  deriving Repr, DecidableEq

/-- The request loop of src/src/bin/unique_ids.rs: the stream of requests is
enumerated, and the k-th request is answered with the id string
node_id/counter where the counter is the enumeration index (the same string
the format macro produces, with the counter rendered in decimal). -/
def run (node : String) (id : Nat) : List GenRequest → List GenRespone
  | [] => []
  | .generate :: rest => .generateOk (node ++ "/" ++ Nat.repr id) :: run node (id + 1) rest

/-- Numeric value of a decimal digit character, the inverse of Nat.digitChar
on the digits zero to nine; used to invert the decimal rendering of the
unique-id counter. -/
def decDigit (c : Char) : Nat := c.toNat - 48

/-- Value of a big-endian decimal digit string, a left inverse of the
decimal rendering used by the unique-id format. -/
def decValue : List Char → Nat
  | [] => 0
  | c :: cs => decDigit c * 10 ^ cs.length + decValue cs

end UniqueIds

namespace Broadcast

theorem tick_peer_fields {s : EventHandler} {p : String}
    {r : EventHandler × Option (Message BroadcastRespone)}
    (h : tick_peer s p = some r) :
    r.1.known = s.known ∧ r.1.messages = s.messages ∧
      r.1.knownKeys = s.knownKeys ∧ r.1.peers = s.peers ∧
      r.1.node = s.node ∧ r.1.force = s.force := by
  simp only [tick_peer] at h
  split at h
  · split at h
    · cases h; exact ⟨rfl, rfl, rfl, rfl, rfl, rfl⟩
    · cases h; exact ⟨rfl, rfl, rfl, rfl, rfl, rfl⟩
  · cases h

theorem tick_list_fields :
    ∀ (l : List String) (s : EventHandler)
      (r : EventHandler × List (Message BroadcastRespone)),
      tick_list s l = some r →
      r.1.known = s.known ∧ r.1.messages = s.messages ∧
        r.1.knownKeys = s.knownKeys ∧ r.1.peers = s.peers := by
  intro l
  induction l with
  | nil => intro s r h; cases h; exact ⟨rfl, rfl, rfl, rfl⟩
  | cons p ps ih =>
    intro s r h
    simp only [tick_list] at h
    cases htp : tick_peer s p with
    | none => rw [htp] at h; cases h
    | some pr =>
      rw [htp] at h
      obtain ⟨s', m⟩ := pr
      obtain ⟨h1, h2, h3, h4, -, -⟩ := tick_peer_fields htp
      cases m with
      | none =>
        obtain ⟨g1, g2, g3, g4⟩ := ih s' r h
        exact ⟨g1.trans h1, g2.trans h2, g3.trans h3, g4.trans h4⟩
      | some msg =>
        replace h : (tick_list s' ps).map (fun x => (x.1, msg :: x.2)) = some r := h
        rw [Option.map_eq_some'] at h
        obtain ⟨r', hr', hmap⟩ := h
        obtain ⟨g1, g2, g3, g4⟩ := ih s' r' hr'
        cases hmap
        exact ⟨g1.trans h1, g2.trans h2, g3.trans h3, g4.trans h4⟩

theorem handle_input_payload_fields {s : EventHandler} {p : BroadcastRequest}
    {q : String} {o : StepOut} (h : handle_input_payload s p q = some o) :
    o.state.knownKeys = s.knownKeys ∧ o.state.node = s.node ∧
      o.state.force = s.force := by
  cases p with
  | broadcast m => simp only [handle_input_payload] at h; cases h; exact ⟨rfl, rfl, rfl⟩
  | read => simp only [handle_input_payload] at h; cases h; exact ⟨rfl, rfl, rfl⟩
  | topology t =>
    simp only [handle_input_payload] at h
    cases hl : t.lookup s.node <;> rw [hl] at h <;> cases h <;> exact ⟨rfl, rfl, rfl⟩
  | consensus seen seen_ack =>
    simp only [handle_input_payload] at h
    split at h
    · cases h; exact ⟨rfl, rfl, rfl⟩
    · cases h

theorem consensus_step (s : EventHandler) (seen : Finset Nat)
    (seen_ack : List Nat) (src : String) (h : src ∈ s.knownKeys) :
    handle_input_payload s (.consensus seen seen_ack) src = some
      { state :=
          { s with
            known := fun q =>
              if q = src then s.known q ∪ seen_ack.toFinset else s.known q
            messages :=
              if seen ⊆ s.messages then s.messages else s.messages ∪ seen
            last_sent := fun q => if q = src then seen else s.last_sent q }
        tick := !decide (seen ⊆ s.messages) && s.force
        response := none } := by
  simp [handle_input_payload, h]

theorem reachable_knownKeys {s₀ s : EventHandler} (h : Reachable s₀ s) :
    s.knownKeys = s₀.knownKeys := by
  induction h with
  | init => rfl
  | input hr hstep ih => exact ((handle_input_payload_fields hstep).1).trans ih
  | tick hr hnd hfin hstep ih => exact ((tick_list_fields _ _ _ hstep).2.2.1).trans ih

end Broadcast

/-- C1: handling an inbound consensus event with payload seen and seen_ack
from a roster peer updates the state in exactly three steps: known of the
peer becomes its union with seen_ack, messages becomes its union with seen
exactly when seen is not already a subset (with a force-tick signalled in
that case iff FORCE_TICK is on), and last received of the peer is
overwritten with seen; entries of other peers and the peers set are
untouched and no synchronous reply is emitted. -/
theorem gossip_consensus_handler_spec (s : Broadcast.EventHandler)
    (seen : Finset Nat) (seen_ack : List Nat) (src : String)
    (h : src ∈ s.knownKeys) :
    (Broadcast.handle_input_payload s (.consensus seen seen_ack) src).map
        (fun o => (o.state.known src, o.state.messages, o.state.last_sent src,
                   o.tick, o.response, o.state.peers)) =
      some (s.known src ∪ seen_ack.toFinset,
            (if seen ⊆ s.messages then s.messages else s.messages ∪ seen),
            seen,
            !decide (seen ⊆ s.messages) && s.force,
            none, s.peers)
    ∧ ∀ q, q ≠ src →
        (Broadcast.handle_input_payload s (.consensus seen seen_ack) src).map
          (fun o => (o.state.known q, o.state.last_sent q)) =
        some (s.known q, s.last_sent q) := by
  constructor
  · simp [Broadcast.handle_input_payload, h]
  · intro q hq
    simp [Broadcast.handle_input_payload, h, hq]

theorem gossip_consensus_handler_spec_witness :
    (Broadcast.handle_input_payload
        (Broadcast.EventHandler.new "n1" ["n1", "n2"] true)
        (.consensus {1} [2]) "n2").map
      (fun o => (o.state.known "n2", o.state.messages, o.state.last_sent "n2",
                 o.tick, o.response, o.state.peers)) =
    some ((Broadcast.EventHandler.new "n1" ["n1", "n2"] true).known "n2" ∪
            ([2] : List Nat).toFinset,
          (if ({1} : Finset Nat) ⊆
              (Broadcast.EventHandler.new "n1" ["n1", "n2"] true).messages then
            (Broadcast.EventHandler.new "n1" ["n1", "n2"] true).messages
          else (Broadcast.EventHandler.new "n1" ["n1", "n2"] true).messages ∪ {1}),
          {1},
          !decide (({1} : Finset Nat) ⊆
            (Broadcast.EventHandler.new "n1" ["n1", "n2"] true).messages) &&
            (Broadcast.EventHandler.new "n1" ["n1", "n2"] true).force,
          none, (Broadcast.EventHandler.new "n1" ["n1", "n2"] true).peers) :=
  (gossip_consensus_handler_spec _ {1} [2] "n2" (by decide)).1

/-- C2: for a peer p of the tick loop (p in peers, hence in the roster), the
tick computes seen as messages minus known of p and seen_ack by draining
last received of p; it emits nothing when both are empty and otherwise emits
exactly one consensus envelope with src self, dst p, no msg_id and no
in_reply_to; in either case last received of p is empty afterwards. -/
theorem gossip_tick_peer_spec (s : Broadcast.EventHandler) (p : String)
    (_hp : p ∈ s.peers) (hk : p ∈ s.knownKeys) :
    (Broadcast.tick_peer s p).map (fun r => (r.1.last_sent p, r.2)) =
      some ((∅ : Finset Nat),
        if s.messages \ s.known p = ∅ ∧ s.last_sent p = ∅ then none
        else some { src := s.node, dst := p,
                    body := { id := none, reply_id := none,
                              payload := .consensus (s.messages \ s.known p)
                                           (s.last_sent p) } }) := by
  simp only [Broadcast.tick_peer, if_pos hk]
  split <;> simp

theorem gossip_tick_peer_spec_witness :
    (Broadcast.tick_peer
        { Broadcast.EventHandler.new "n1" ["n1", "n2"] true with
            peers := {"n2"}, messages := {7} } "n2").map
      (fun r => (r.1.last_sent "n2", r.2)) =
    some ((∅ : Finset Nat),
      if ({ Broadcast.EventHandler.new "n1" ["n1", "n2"] true with
              peers := {"n2"}, messages := {7} } : Broadcast.EventHandler).messages \
           ({ Broadcast.EventHandler.new "n1" ["n1", "n2"] true with
              peers := {"n2"}, messages := {7} } : Broadcast.EventHandler).known "n2" = ∅ ∧
         ({ Broadcast.EventHandler.new "n1" ["n1", "n2"] true with
              peers := {"n2"}, messages := {7} } : Broadcast.EventHandler).last_sent "n2" = ∅
      then none
      else some { src := ({ Broadcast.EventHandler.new "n1" ["n1", "n2"] true with
                      peers := {"n2"}, messages := {7} } : Broadcast.EventHandler).node,
                  dst := "n2",
                  body := { id := none, reply_id := none,
                            payload := .consensus
                              (({ Broadcast.EventHandler.new "n1" ["n1", "n2"] true with
                                  peers := {"n2"}, messages := {7} } : Broadcast.EventHandler).messages \
                               ({ Broadcast.EventHandler.new "n1" ["n1", "n2"] true with
                                  peers := {"n2"}, messages := {7} } : Broadcast.EventHandler).known "n2")
                              (({ Broadcast.EventHandler.new "n1" ["n1", "n2"] true with
                                  peers := {"n2"}, messages := {7} } : Broadcast.EventHandler).last_sent "n2") } }) :=
  gossip_tick_peer_spec _ "n2" (by decide) (by decide)

/-- C5 counterexample: a freshly initialised node of the two-node roster
that has received a broadcast but no topology message has an empty peers
set, not the roster minus itself, and its tick (which iterates over the
empty peers set, whose only duplicate-free enumeration is the empty list)
emits no envelope at all even though messages minus known of the other
roster node is nonempty. -/
theorem broadcast_default_peers_cex :
    (Broadcast.handle_input_payload
        (Broadcast.EventHandler.new "n1" ["n1", "n2"] true)
        (.broadcast 42) "c1").map
      (fun o => (o.state.peers, o.state.messages \ o.state.known "n2",
                 (Broadcast.tick_list o.state []).map (fun r => r.2))) =
      some ((∅ : Finset String), {42}, some []) ∧
    (∅ : Finset String) ≠ {"n2"} := by
  constructor
  · rfl
  · decide

/-- C5 amended: the peers set of a broadcast node starts empty (not as the
roster minus self), so a tick before any topology message iterates over no
peer and emits nothing; a topology message whose map contains the node's
own id replaces peers with exactly that entry, and one without it leaves
peers unchanged. -/
theorem broadcast_peers_spec :
    (∀ node node_ids force,
       (Broadcast.EventHandler.new node node_ids force).peers = ∅)
  ∧ (∀ (s : Broadcast.EventHandler) t q ps, t.lookup s.node = some ps →
       (Broadcast.handle_input_payload s (.topology t) q).map
         (fun o => (o.state.peers, o.response)) =
       some (ps.toFinset, some .topologyOk))
  ∧ (∀ (s : Broadcast.EventHandler) t q, t.lookup s.node = none →
       (Broadcast.handle_input_payload s (.topology t) q).map
         (fun o => (o.state.peers, o.response)) =
       some (s.peers, some .topologyOk))
  ∧ (∀ (s : Broadcast.EventHandler) (l : List String),
       l.toFinset = s.peers → s.peers = ∅ →
       Broadcast.tick_list s l = some (s, [])) := by
  refine ⟨fun _ _ _ => rfl, ?_, ?_, ?_⟩
  · intro s t q ps hl
    simp [Broadcast.handle_input_payload, hl]
  · intro s t q hl
    simp [Broadcast.handle_input_payload, hl]
  · intro s l hl he
    rw [he] at hl
    rw [List.toFinset_eq_empty_iff] at hl
    subst hl
    rfl

theorem broadcast_peers_spec_witness :
    (Broadcast.handle_input_payload
        (Broadcast.EventHandler.new "n1" ["n1", "n2"] true)
        (.topology [("n1", ["n2"])]) "c1").map
      (fun o => (o.state.peers, o.response)) =
    some ((["n2"] : List String).toFinset, some .topologyOk) :=
  broadcast_peers_spec.2.1 _ [("n1", ["n2"])] "c1" ["n2"] rfl

/-- C6: delivering the same consensus payload from the same roster peer
twice in succession leaves the handler state identical to delivering it
once. -/
theorem gossip_idempotence (s : Broadcast.EventHandler) (seen : Finset Nat)
    (seen_ack : List Nat) (src : String) (h : src ∈ s.knownKeys) :
    ((Broadcast.handle_input_payload s (.consensus seen seen_ack) src).map
        Broadcast.StepOut.state).bind
      (fun s₁ =>
        (Broadcast.handle_input_payload s₁ (.consensus seen seen_ack) src).map
          Broadcast.StepOut.state) =
    (Broadcast.handle_input_payload s (.consensus seen seen_ack) src).map
      Broadcast.StepOut.state := by
  rw [Broadcast.consensus_step s seen seen_ack src h]
  simp only [Option.map_some', Option.some_bind]
  rw [Broadcast.consensus_step _ seen seen_ack src (by exact h)]
  simp only [Option.map_some']
  congr 1
  have hsub : seen ⊆ (if seen ⊆ s.messages then s.messages else s.messages ∪ seen) := by
    split
    · assumption
    · exact Finset.subset_union_right
  ext1
  · rfl
  · rfl
  · simp [hsub]
  · rfl
  · funext q
    by_cases hq : q = src
    · simp [hq, Finset.union_assoc, Finset.union_self]
    · simp [hq]
  · funext q
    by_cases hq : q = src
    · simp [hq]
    · simp [hq]
  · rfl
  · rfl

theorem gossip_idempotence_witness :
    ((Broadcast.handle_input_payload
        (Broadcast.EventHandler.new "n1" ["n1", "n2"] true)
        (.consensus {1} [2]) "n2").map Broadcast.StepOut.state).bind
      (fun s₁ =>
        (Broadcast.handle_input_payload s₁ (.consensus {1} [2]) "n2").map
          Broadcast.StepOut.state) =
    (Broadcast.handle_input_payload
        (Broadcast.EventHandler.new "n1" ["n1", "n2"] true)
        (.consensus {1} [2]) "n2").map Broadcast.StepOut.state :=
  gossip_idempotence _ {1} [2] "n2" (by decide)

/-- C7 counterexample: the invariant that known of a peer is a subset of
messages does not hold in every reachable state under arbitrary consensus
payloads: delivering consensus with empty seen and seen_ack containing 5
from n2 to a fresh node puts 5 into known of n2 while messages stays
empty (the seen_ack values go into known without ever being checked
against messages). -/
theorem known_subset_messages_cex :
    ¬ (∀ s, Broadcast.Reachable (Broadcast.EventHandler.new "n1" ["n1", "n2"] true) s →
        ∀ p, s.known p ⊆ s.messages) := by
  intro h
  have h5 := h _ (Broadcast.Reachable.input (p := .consensus ∅ [5]) (q := "n2")
      Broadcast.Reachable.init rfl) "n2"
  revert h5
  decide

/-- C7 amended: in every state reachable by broadcast, read, topology,
consensus and tick events in which each delivered consensus carries a
seen_ack that only acknowledges values already in the node's messages (as
honest peers do, since they only acknowledge values this node sent from its
own messages set), known of every peer is a subset of messages. -/
theorem known_subset_messages_inv (n : String) (ids : List String) (f : Bool)
    (s : Broadcast.EventHandler)
    (h : Broadcast.ReachableAck (Broadcast.EventHandler.new n ids f) s) :
    ∀ p, s.known p ⊆ s.messages := by
  induction h with
  | init =>
    intro p
    exact Finset.Subset.refl _
  | input hr hack hstep ih =>
    rename_i s' pl q o
    cases pl with
    | broadcast m =>
      simp only [Broadcast.handle_input_payload] at hstep
      cases hstep
      intro x
      exact (ih x).trans (Finset.subset_insert _ _)
    | read =>
      simp only [Broadcast.handle_input_payload] at hstep
      cases hstep
      exact ih
    | topology t =>
      simp only [Broadcast.handle_input_payload] at hstep
      cases hl : t.lookup s'.node <;> rw [hl] at hstep <;> cases hstep <;> exact ih
    | consensus seen ack =>
      have hhon := hack seen ack rfl
      simp only [Broadcast.handle_input_payload] at hstep
      split at hstep
      · cases hstep
        have hmsg : s'.messages ⊆
            (if seen ⊆ s'.messages then s'.messages else s'.messages ∪ seen) := by
          split
          · exact Finset.Subset.refl _
          · exact Finset.subset_union_left
        intro x
        by_cases hx : x = q
        · subst hx
          show (if x = x then s'.known x ∪ ack.toFinset else s'.known x) ⊆ _
          rw [if_pos rfl]
          exact Finset.union_subset ((ih x).trans hmsg) (hhon.trans hmsg)
        · show (if x = q then s'.known x ∪ ack.toFinset else s'.known x) ⊆ _
          rw [if_neg hx]
          exact (ih x).trans hmsg
      · cases hstep
  | tick hr hnd hfin hstep ih =>
    obtain ⟨h1, h2, -, -⟩ := Broadcast.tick_list_fields _ _ _ hstep
    intro x
    rw [h1, h2]
    exact ih x

theorem known_subset_messages_inv_witness :
    (Broadcast.EventHandler.new "n1" ["n1", "n2"] true).known "n2" ⊆
      (Broadcast.EventHandler.new "n1" ["n1", "n2"] true).messages :=
  known_subset_messages_inv "n1" ["n1", "n2"] true _ Broadcast.ReachableAck.init "n2"

/-- C10: the broadcast step is total on broadcast, read and topology
events; a consensus event is handled iff its src has a known-map entry
(the roster minus self, which every reachable state preserves), and a tick
over an enumeration of peers is handled iff every peer has one; a topology
message may install a peer outside the roster verbatim, after which the
next tick dies on the known-map lookup, as does a consensus from an
unknown src. -/
theorem broadcast_totality :
    (∀ (s : Broadcast.EventHandler) m q,
       (Broadcast.handle_input_payload s (.broadcast m) q).isSome = true)
  ∧ (∀ (s : Broadcast.EventHandler) q,
       (Broadcast.handle_input_payload s .read q).isSome = true)
  ∧ (∀ (s : Broadcast.EventHandler) t q,
       (Broadcast.handle_input_payload s (.topology t) q).isSome = true)
  ∧ (∀ (s : Broadcast.EventHandler) seen ack q, q ∈ s.knownKeys →
       (Broadcast.handle_input_payload s (.consensus seen ack) q).isSome = true)
  ∧ (∀ (s : Broadcast.EventHandler) seen ack q, q ∉ s.knownKeys →
       Broadcast.handle_input_payload s (.consensus seen ack) q = none)
  ∧ (∀ (s : Broadcast.EventHandler) (l : List String),
       (∀ x ∈ l, x ∈ s.knownKeys) → (Broadcast.tick_list s l).isSome = true)
  ∧ (∀ (s : Broadcast.EventHandler) (l : List String) x, x ∈ l →
       x ∉ s.knownKeys → Broadcast.tick_list s l = none)
  ∧ (∀ n ids f (s : Broadcast.EventHandler),
       Broadcast.Reachable (Broadcast.EventHandler.new n ids f) s →
       s.knownKeys = (ids.filter (fun m => !(m == n))).toFinset)
  ∧ ((Broadcast.handle_input_payload
        (Broadcast.EventHandler.new "n1" ["n1", "n2"] true)
        (.topology [("n1", ["n3"])]) "c1").map (fun o => o.state.peers) =
      some (["n3"] : List String).toFinset)
  ∧ ((Broadcast.handle_input_payload
        (Broadcast.EventHandler.new "n1" ["n1", "n2"] true)
        (.topology [("n1", ["n3"])]) "c1").map
        (fun o => Broadcast.tick_list o.state ["n3"]) = some none) := by
  refine ⟨?_, ?_, ?_, ?_, ?_, ?_, ?_, ?_, ?_, ?_⟩
  · intro s m q
    simp [Broadcast.handle_input_payload]
  · intro s q
    simp [Broadcast.handle_input_payload]
  · intro s t q
    cases hl : t.lookup s.node <;> simp [Broadcast.handle_input_payload, hl]
  · intro s seen ack q h
    simp [Broadcast.handle_input_payload, h]
  · intro s seen ack q h
    simp [Broadcast.handle_input_payload, h]
  · intro s l
    induction l generalizing s with
    | nil => intro _; rfl
    | cons p ps ih =>
      intro hall
      have hk := hall p (List.mem_cons_self p ps)
      simp only [Broadcast.tick_list]
      cases htp : Broadcast.tick_peer s p with
      | none =>
        exfalso
        simp only [Broadcast.tick_peer, if_pos hk] at htp
        split at htp <;> simp at htp
      | some pr =>
        obtain ⟨s', m⟩ := pr
        have hkk := (Broadcast.tick_peer_fields htp).2.2.1
        have hrest : ∀ x ∈ ps, x ∈ s'.knownKeys := fun x hx => by
          rw [hkk]; exact hall x (List.mem_cons_of_mem p hx)
        cases m with
        | none => exact ih s' hrest
        | some msg =>
          have hs := ih s' hrest
          show ((Broadcast.tick_list s' ps).map (fun r => (r.1, msg :: r.2))).isSome = true
          cases hts : Broadcast.tick_list s' ps with
          | none => rw [hts] at hs; simp at hs
          | some r' => rfl
  · intro s l
    induction l generalizing s with
    | nil => intro x hx; cases hx
    | cons p ps ih =>
      intro x hx hnot
      rcases List.mem_cons.mp hx with rfl | hx'
      · simp only [Broadcast.tick_list, Broadcast.tick_peer, if_neg hnot]
      · simp only [Broadcast.tick_list]
        cases htp : Broadcast.tick_peer s p with
        | none => rfl
        | some pr =>
          obtain ⟨s', m⟩ := pr
          have hkk := (Broadcast.tick_peer_fields htp).2.2.1
          have hnot' : x ∉ s'.knownKeys := by rw [hkk]; exact hnot
          cases m with
          | none => exact ih s' x hx' hnot'
          | some msg =>
            show (Broadcast.tick_list s' ps).map (fun r => (r.1, msg :: r.2)) = none
            rw [ih s' x hx' hnot']
            rfl
  · intro n ids f s h
    exact Broadcast.reachable_knownKeys h
  · rfl
  · rfl

theorem broadcast_totality_witness :
    (Broadcast.handle_input_payload
        (Broadcast.EventHandler.new "n1" ["n1", "n2"] true)
        (.consensus ∅ []) "n2").isSome = true :=
  broadcast_totality.2.2.2.1 _ ∅ [] "n2" (by decide)

/-- C3 counterexample: in grow_only_counter.rs a KeyDoesNotExist error
reply arriving with an inflight record (delta 0, inflight old 0 new 2)
leaves delta at 0, keeps the inflight record and signals no force-tick,
contradicting the claim that on every error, regardless of the code, the
staged delta is returned (delta plus new minus old), the inflight record is
cleared and a force-tick is signalled. -/
theorem counter_error_restore_cex :
    (GrowOnly.handle_input_payload
        { id := 1, node := "n1", value := 2, delta := 0,
          last_update := some (0, 0, 2) } (.error .keyDoesNotExist)).map
      (fun o => (o.state.delta, o.state.last_update, o.tick, o.response)) =
      some (0, some (0, 0, 2), false,
            some (.updateValueFrom "COUNTER" 0 0 true)) ∧
    ¬ ((0 : Nat) = 0 + (2 - 0) ∧
       (some (0, 0, 2) : Option (Nat × Nat × Nat)) = none) := by
  constructor
  · rfl
  · decide

/-- C3 amended: in g_counter.rs every handled KV error (KeyDoesNotExist,
PreconditionFailed, Timeout, KeyAlreadyExists) returns the staged delta,
clears the inflight record and force-ticks exactly when one was inflight,
emitting the bootstrap cas only for KeyDoesNotExist, and any other code is
fatal; in grow_only_counter.rs the restore happens only for
PreconditionFailed, Timeout and KeyAlreadyExists, while KeyDoesNotExist
leaves the state untouched and emits the bootstrap cas; in both nodes the
total delta plus the staged new minus old is unchanged across every handled
error. -/
theorem counter_error_restore_spec :
    (∀ (s : GCounter.EventHandler) (c : ErrorCode),
       (c = .keyDoesNotExist ∨ c = .preconditionFailed ∨ c = .timeout ∨
         c = .keyAlreadyExists) →
       (GCounter.handle_input_payload s (.error c)).map
         (fun o => (o.state.delta, o.state.last_update, o.tick, o.response)) =
       some (s.delta + GCounter.inflDelta s, none, s.last_update.isSome,
             if c = .keyDoesNotExist
             then some (.updateCounter GCounter.KEY 0 0 true) else none))
  ∧ (∀ (s : GCounter.EventHandler) (c : ErrorCode),
       ¬ (c = .keyDoesNotExist ∨ c = .preconditionFailed ∨ c = .timeout ∨
         c = .keyAlreadyExists) →
       GCounter.handle_input_payload s (.error c) = none)
  ∧ (∀ (s : GCounter.EventHandler) (c : ErrorCode),
       (c = .keyDoesNotExist ∨ c = .preconditionFailed ∨ c = .timeout ∨
         c = .keyAlreadyExists) →
       (GCounter.handle_input_payload s (.error c)).map
         (fun o => o.state.delta + GCounter.inflDelta o.state) =
       some (s.delta + GCounter.inflDelta s))
  ∧ (∀ (s : GrowOnly.EventHandler) (c : ErrorCode),
       (c = .preconditionFailed ∨ c = .timeout ∨ c = .keyAlreadyExists) →
       (GrowOnly.handle_input_payload s (.error c)).map
         (fun o => (o.state.delta, o.state.last_update, o.tick, o.response)) =
       some (s.delta + GrowOnly.inflDelta s, none, s.last_update.isSome, none))
  ∧ (∀ (s : GrowOnly.EventHandler),
       (GrowOnly.handle_input_payload s (.error .keyDoesNotExist)).map
         (fun o => (o.state, o.tick, o.response)) =
       some (s, false, some (.updateValueFrom GrowOnly.KEY 0 0 true)))
  ∧ (∀ (s : GrowOnly.EventHandler) (c : ErrorCode),
       (c = .keyDoesNotExist ∨ c = .preconditionFailed ∨ c = .timeout ∨
         c = .keyAlreadyExists) →
       (GrowOnly.handle_input_payload s (.error c)).map
         (fun o => o.state.delta + GrowOnly.inflDelta o.state) =
       some (s.delta + GrowOnly.inflDelta s))
  ∧ (∀ (s : GrowOnly.EventHandler) (c : ErrorCode),
       ¬ (c = .keyDoesNotExist ∨ c = .preconditionFailed ∨ c = .timeout ∨
         c = .keyAlreadyExists) →
       GrowOnly.handle_input_payload s (.error c) = none) := by
  refine ⟨?_, ?_, ?_, ?_, ?_, ?_, ?_⟩
  · intro s c hc
    rcases hc with rfl | rfl | rfl | rfl <;>
      rcases hlu : s.last_update with - | ⟨i, old, new⟩ <;>
        simp [GCounter.handle_input_payload, GCounter.inflDelta, hlu]
  · intro s c hc
    cases c <;> simp_all [GCounter.handle_input_payload]
  · intro s c hc
    rcases hc with rfl | rfl | rfl | rfl <;>
      rcases hlu : s.last_update with - | ⟨i, old, new⟩ <;>
        simp [GCounter.handle_input_payload, GCounter.inflDelta, hlu]
  · intro s c hc
    rcases hc with rfl | rfl | rfl <;>
      rcases hlu : s.last_update with - | ⟨i, old, new⟩ <;>
        simp [GrowOnly.handle_input_payload, GrowOnly.inflDelta, hlu]
  · intro s
    rfl
  · intro s c hc
    rcases hc with rfl | rfl | rfl | rfl <;>
      rcases hlu : s.last_update with - | ⟨i, old, new⟩ <;>
        simp [GrowOnly.handle_input_payload, GrowOnly.inflDelta, hlu]
  · intro s c hc
    cases c <;> simp_all [GrowOnly.handle_input_payload]

theorem counter_error_restore_spec_witness :
    (GCounter.handle_input_payload
        { id := 1, node := "n1", value := 2, delta := 0,
          last_update := some (0, 0, 2) } (.error .preconditionFailed)).map
      (fun o => (o.state.delta, o.state.last_update, o.tick, o.response)) =
    some (({ id := 1, node := "n1", value := 2, delta := 0,
             last_update := some (0, 0, 2) } : GCounter.EventHandler).delta +
            GCounter.inflDelta
              { id := 1, node := "n1", value := 2, delta := 0,
                last_update := some (0, 0, 2) },
          none,
          ({ id := 1, node := "n1", value := 2, delta := 0,
             last_update := some (0, 0, 2) } : GCounter.EventHandler).last_update.isSome,
          if (ErrorCode.preconditionFailed = .keyDoesNotExist)
          then some (.updateCounter GCounter.KEY 0 0 true) else none) :=
  counter_error_restore_spec.1 _ _ (Or.inr (Or.inl rfl))

/-- C4 (code bug): the values answered to client reads by the g_counter
node can decrease. After add 2, a KV read_ok 0 (which optimistically sets
value to 2 and stages a cas from 0 to 2), a PreconditionFailed cas error
(realisable whenever a concurrent node wins the compare-and-swap race,
which restores delta 2 on top of the optimistic value 2), a client read
answers 4; after the subsequent KV read_ok 1 a client read answers 3, so
the reported sequence 4, 3 is not monotone, contradicting the counter
monotonicity invariant of the spec. -/
theorem counter_monotonicity_violation :
    (GCounter.runReads (GCounter.EventHandler.new "n1")
        [.add 2, .readCounterOk 0, .error .preconditionFailed, .read,
         .readCounterOk 1, .read]).map (fun r => r.2) = some [4, 3] ∧
    ¬ (4 : Nat) ≤ 3 := by
  constructor
  · decide
  · decide

/-- C8 counterexample: in grow_only_counter.rs a KV read_ok with value 5
arriving while delta is 0 leaves the node's value at 7 instead of setting
it to value plus delta (5), contradicting the claim that the handler always
sets value to the read value plus delta. -/
theorem counter_read_ok_cex :
    (GrowOnly.handle_input_payload
        { id := 1, node := "n1", value := 7, delta := 0, last_update := none }
        (.keyValue 5)).map (fun o => (o.state.value, o.response)) =
      some (7, none) ∧ (7 : Nat) ≠ 5 + 0 := by
  constructor
  · rfl
  · decide

/-- C8 amended: in g_counter.rs a KV read_ok with some value always sets
the node's value to value plus delta; when delta is positive it records the
inflight triple (current msg id, value, value plus delta), zeroes delta and
emits the cas from value to value plus delta without create, and when delta
is zero it emits nothing and changes nothing else; in grow_only_counter.rs
the same happens when delta is positive, but with delta zero the state is
left entirely unchanged (in particular value is not updated). -/
theorem counter_read_ok_spec :
    (∀ (s : GCounter.EventHandler) (v : Nat),
       (GCounter.handle_input_payload s (.readCounterOk v)).map
         (fun o => (o.state.value, o.state.delta, o.state.last_update,
                    o.state.id, o.state.node, o.tick, o.response)) =
       some (v + s.delta, 0,
             (if 0 < s.delta then some (s.id, v, v + s.delta) else s.last_update),
             s.id, s.node, false,
             (if 0 < s.delta
              then some (.updateCounter GCounter.KEY v (v + s.delta) false)
              else none)))
  ∧ (∀ (s : GrowOnly.EventHandler) (v : Nat),
       (GrowOnly.handle_input_payload s (.keyValue v)).map
         (fun o => (o.state, o.tick, o.response)) =
       some (if 0 < s.delta
             then ({ s with value := v + s.delta,
                            last_update := some (s.id, v, v + s.delta),
                            delta := 0 },
                   false,
                   some (.updateValueFrom GrowOnly.KEY v (v + s.delta) false))
             else (s, false, none))) := by
  constructor
  · intro s v
    by_cases hd : s.delta > 0
    · simp [GCounter.handle_input_payload, hd]
    · have h0 : s.delta = 0 := Nat.eq_zero_of_not_pos hd
      simp [GCounter.handle_input_payload, hd, h0]
  · intro s v
    by_cases hd : s.delta > 0
    · simp [GrowOnly.handle_input_payload, hd]
    · simp [GrowOnly.handle_input_payload, hd]

namespace UniqueIds

theorem decDigit_digitChar : ∀ n < 10, decDigit (Nat.digitChar n) = n := by
  decide

theorem decValue_toDigitsCore :
    ∀ (f n : Nat) (acc : List Char), n < f →
      decValue (Nat.toDigitsCore 10 f n acc) =
        n * 10 ^ acc.length + decValue acc := by
  intro f
  induction f with
  | zero => intro n acc h; exact absurd h (Nat.not_lt_zero n)
  | succ f ih =>
    intro n acc h
    simp only [Nat.toDigitsCore]
    by_cases h0 : n / 10 = 0
    · rw [if_pos h0]
      have hn : n < 10 := by omega
      simp only [decValue]
      rw [decDigit_digitChar (n % 10) (by omega), Nat.mod_eq_of_lt hn]
    · rw [if_neg h0]
      have hlt : n / 10 < f := by omega
      rw [ih (n / 10) (Nat.digitChar (n % 10) :: acc) hlt]
      simp only [decValue, List.length_cons]
      rw [decDigit_digitChar (n % 10) (by omega)]
      have hdm := Nat.div_add_mod n 10
      calc n / 10 * 10 ^ (acc.length + 1) +
            (n % 10 * 10 ^ acc.length + decValue acc)
          = (10 * (n / 10) + n % 10) * 10 ^ acc.length + decValue acc := by ring
        _ = n * 10 ^ acc.length + decValue acc := by rw [hdm]

theorem decValue_toDigits (n : Nat) : decValue (Nat.toDigits 10 n) = n := by
  simp only [Nat.toDigits]
  rw [decValue_toDigitsCore (n + 1) n [] (Nat.lt_succ_self n)]
  simp [decValue]

theorem repr_injective : Function.Injective Nat.repr := by
  intro a b h
  have ha : Nat.toDigits 10 a = Nat.toDigits 10 b := by
    have hd := congrArg String.data h
    simpa [Nat.repr, List.asString] using hd
  have hv := congrArg decValue ha
  rwa [decValue_toDigits, decValue_toDigits] at hv

theorem genId_injective (node : String) :
    Function.Injective (fun k : Nat => node ++ "/" ++ Nat.repr k) := by
  intro a b h
  apply repr_injective
  have hd := congrArg String.data h
  simp only [String.data_append, List.append_assoc] at hd
  apply String.ext
  exact List.append_cancel_left (List.append_cancel_left hd)

theorem run_length (node : String) :
    ∀ (reqs : List GenRequest) (i : Nat),
      (run node i reqs).length = reqs.length
  | [], _ => rfl
  | .generate :: rest, i => by
      simp only [run, List.length_cons]
      rw [run_length node rest (i + 1)]

theorem run_getElem (node : String) :
    ∀ (reqs : List GenRequest) (i k : Nat), k < reqs.length →
      (run node i reqs)[k]? =
        some (.generateOk (node ++ "/" ++ Nat.repr (i + k))) := by
  intro reqs
  induction reqs with
  | nil => intro i k h; exact absurd h (Nat.not_lt_zero k)
  | cons g rest ih =>
    intro i k h
    cases g
    cases k with
    | zero => simp [run]
    | succ k =>
      have := ih (i + 1) k (by simpa using Nat.lt_of_succ_lt_succ h)
      simp only [run, List.getElem?_cons_succ]
      rw [this, show i + 1 + k = i + (k + 1) from by omega]

theorem run_mem (node : String) :
    ∀ (reqs : List GenRequest) (j : Nat) (x : GenRespone),
      x ∈ run node j reqs →
      ∃ k, j ≤ k ∧ x = .generateOk (node ++ "/" ++ Nat.repr k) := by
  intro reqs
  induction reqs with
  | nil => intro j x hx; cases hx
  | cons g rest ih =>
    intro j x hx
    cases g
    rcases List.mem_cons.mp hx with rfl | hx'
    · exact ⟨j, Nat.le_refl j, rfl⟩
    · obtain ⟨k, hk, he⟩ := ih (j + 1) x hx'
      exact ⟨k, Nat.le_of_succ_le hk, he⟩

theorem run_nodup (node : String) :
    ∀ (reqs : List GenRequest) (i : Nat), (run node i reqs).Nodup := by
  intro reqs
  induction reqs with
  | nil => intro i; exact List.nodup_nil
  | cons g rest ih =>
    intro i
    cases g
    refine List.nodup_cons.mpr ⟨?_, ih (i + 1)⟩
    intro hmem
    obtain ⟨k, hk, he⟩ := run_mem node rest (i + 1) _ hmem
    have : node ++ "/" ++ Nat.repr i = node ++ "/" ++ Nat.repr k := by
      injection he
    have hik : i = k := genId_injective node this
    omega

end UniqueIds

/-- C9: for every sequence of generate requests handled by a unique-id node,
the k-th reply (counting from 0) is generate_ok with id the string made of
the node id, a slash, and the decimal rendering of k; the counter increments
once per reply, so the ids a node emits are pairwise distinct. -/
theorem unique_ids_spec (node : String) (reqs : List UniqueIds.GenRequest) :
    (∀ k, k < reqs.length →
       (UniqueIds.run node 0 reqs)[k]? =
         some (.generateOk (node ++ "/" ++ Nat.repr k)))
  ∧ (UniqueIds.run node 0 reqs).length = reqs.length
  ∧ (UniqueIds.run node 0 reqs).Nodup := by
  refine ⟨fun k hk => ?_, UniqueIds.run_length node reqs 0,
    UniqueIds.run_nodup node reqs 0⟩
  have := UniqueIds.run_getElem node reqs 0 k hk
  simpa using this

theorem unique_ids_spec_witness :
    (UniqueIds.run "n1" 0 [.generate, .generate])[1]? =
      some (.generateOk ("n1" ++ "/" ++ Nat.repr 1)) :=
  (unique_ids_spec "n1" [.generate, .generate]).1 1 (by decide)

